import Mathlib

/-!
The file-I/O engine of BFS (fs.c).

A shallow embedding of the user file-system API of fs.c: fsRead, fsSeek,
fsTell, fsSize, writeToBlock and fsWrite, followed by theorems about them.

Conventions of the embedding.

* C values of type i32 / int are integers (Int).  The two sums that fsSeek
  stores in the cursor are reduced to the range of an i32 by two's-complement
  wrap-around (i32), which is what the compiled code does on overflow.  The
  other sums of fs.c are formed in the integers: the statements about fsRead
  and fsWrite are about cursors and counts whose sums are i32 values.
  C division and remainder truncate toward zero: Int.tdiv and Int.tmod.
* A byte array is a function from indices to bytes.  An array with a declared
  size (bioBuf, writingBuf) carries that size as the capacity checked by memcpy;
  the caller's buffer is the memory that starts at the pointer the caller
  passes, and its capacity is the caller's business.
* A call returns Except Err (value × state).  Err.fatal is the FATAL macro
  (the program is terminated, the state is the one reached), Err.abort is
  abort(), Err.undefined is a memcpy with a negative length or offset, or one
  in fsRead that leaves the staging array bioBuf.
* The memcpy of writeToBlock that ends beyond the 512 bytes of writingBuf
  overwrites the stack frame behind the array and the call goes on; the block
  written back is the 512 bytes of the array.  fsWriteTrace shows the offset
  and the count of every such copy.
* The layer below fs.c (bfs.c, bio.c, bfs.h) is not part of the sources at
  hand.  Each definition that stands for a piece of it says so.
-/

namespace Fs

/-! ## The layer below fs.c -/

/-- Modelled from the spec: the state the collaborators of the engine own.
The Descriptor Table maps a descriptor to an inode number (fdToInum) and an
inode number to an entry of the open file table (findOFTE), whose cursor is
g_oft; the Allocation/Inode Service records the size of each inode; the Block
Store holds the bytes of each block.  The FBN to DBN mapping is stable and
resolution allocates on demand, so a device block is identified with the pair
(inode number, FBN) it backs, and every block can be resolved. -/
structure Bfs where
  fdToInum : Int → Int
  findOFTE : Int → Int
  g_oft : Int → Int
  size : Int → Int
  blocks : Int × Int → Nat → Int

/-- The in-memory copy of an inode that bfsReadInode fills in; fs.c only looks
at its size field. -/
structure Inode where
  size : Int

/-- Ways in which a call does not return.  Modelled from the spec: FATAL, the
macro of bfs.h, terminates the program with the error code (fatal errors abort
the whole program); the state kept is the one reached when it fired.  The
other two are abort() and undefined behaviour of the C library call memcpy. -/
inductive Err where
  | fatal (errno : Int) (st : Bfs)
  | abort (st : Bfs)
  | undefined

/-- Modelled from the spec: the block size constant of bfs.h (block size fixed
at 512 bytes). -/
def BYTESPERBLOCK : Int := 512

/-- Modelled from the spec: the error code of bfs.h for a bad (negative) seek
offset.  The spec names the condition, not the number; the codes are taken
distinct and non-zero. -/
def EBADCURS : Int := -10

/-- Modelled from the spec: the error code of bfs.h for an unrecognised
whence. -/
def EBADWHENCE : Int := -15

/-- Modelled from the spec: the error code of bfs.h for a missing device
block.  fs.c only tests it against zero. -/
def ENODBN : Int := -24

/-- The value of SEEK_SET in stdio.h. -/
def SEEK_SET : Int := 0

/-- The value of SEEK_CUR in stdio.h. -/
def SEEK_CUR : Int := 1

/-- The value of SEEK_END in stdio.h. -/
def SEEK_END : Int := 2

/-- Modelled from the spec: bfsFdToInum, the inode number bound to a
descriptor (entryFor of the Descriptor Table). -/
def bfsFdToInum (fd : Int) (st : Bfs) : Int := st.fdToInum fd

/-- Modelled from the spec: bfsFindOFTE, the index of the open file table
entry of an inode. -/
def bfsFindOFTE (inum : Int) (st : Bfs) : Int := st.findOFTE inum

/-- Modelled from the spec: bfsTell, the cursor of the entry of a descriptor
(entryFor of the Descriptor Table). -/
def bfsTell (fd : Int) (st : Bfs) : Int :=
  st.g_oft (bfsFindOFTE (bfsFdToInum fd st) st)

/-- Modelled from the spec: bfsSetCursor (setCursor of the Descriptor Table).
It stores the cursor and nothing else: the size update is a separate operation
of the Allocation/Inode Service that the engine has to trigger itself. -/
def bfsSetCursor (inum newCurs : Int) (st : Bfs) : Bfs :=
  { st with g_oft := fun e => if e = bfsFindOFTE inum st then newCurs else st.g_oft e }

/-- Modelled from the spec: bfsGetSize (getSize of the Allocation/Inode
Service). -/
def bfsGetSize (inum : Int) (st : Bfs) : Int := st.size inum

/-- Modelled from the spec: bfsReadInode (readInodeMeta of the
Allocation/Inode Service). -/
def bfsReadInode (inum : Int) (st : Bfs) : Inode := ⟨st.size inum⟩

/-- Modelled from the spec: bfsFbnToDbn (resolveOrAllocate of the
Allocation/Inode Service). -/
def bfsFbnToDbn (inum fbn : Int) : Int × Int := (inum, fbn)

/-- Modelled from the spec: bioWrite (writeBlock of the Block Store): the
block at dbn becomes the 512 bytes of the array. -/
def bioWrite (dbn : Int × Int) (block : Nat → Int) (st : Bfs) : Bfs :=
  { st with blocks := fun d => if d = dbn then block else st.blocks d }

/-- Modelled from the spec: bfsRead, which reads the whole block at the FBN
(readBlock of the Block Store through the FBN to DBN resolution) into the
first 512 bytes of the destination. -/
def bfsRead (inum fbn : Int) (dst : Nat → Int) (st : Bfs) : Nat → Int :=
  fun i => if i < 512 then st.blocks (bfsFbnToDbn inum fbn) i else dst i

/-- Whether a byte count fits a capacity; an array without a declared
capacity fits every count. -/
def fits : Option Int → Int → Bool
  | none, _ => true
  | some cap, n => decide (n ≤ cap)

/-- The call memcpy(dst + off, src, n) of the C library.  dcap and scap are
the declared sizes of the two arrays.  The copy is undefined when the length
or the offset is negative or when it leaves one of the arrays. -/
def memcpy (dst : Nat → Int) (dcap : Option Int) (off : Int) (src : Nat → Int)
    (scap : Option Int) (n : Int) : Option (Nat → Int) :=
  if 0 ≤ off ∧ 0 ≤ n ∧ fits dcap (off + n) = true ∧ fits scap n = true then
    some (fun i => if off.toNat ≤ i ∧ i < off.toNat + n.toNat then src (i - off.toNat) else dst i)
  else none

/-- The value an i32 holds after the sum x was stored in it: x reduced to the
range from -2147483648 to 2147483647 by two's-complement wrap-around. -/
def i32 (x : Int) : Int := (x + 2147483648) % 4294967296 - 2147483648

/-! ## fs.c -/

/-- The function fsTell of fs.c. -/
def fsTell (fd : Int) (st : Bfs) : Int := bfsTell fd st

/-- The function fsSize of fs.c. -/
def fsSize (fd : Int) (st : Bfs) : Int :=
  let inum := bfsFdToInum fd st
  bfsGetSize inum st

/-- The function fsSeek of fs.c. -/
def fsSeek (fd offset whence : Int) (st : Bfs) : Except Err (Int × Bfs) :=
  if offset < 0 then .error (.fatal EBADCURS st)
  else
    let inum := bfsFdToInum fd st
    let ofte := bfsFindOFTE inum st
    if whence = SEEK_SET then
      .ok (0, { st with g_oft := fun e => if e = ofte then offset else st.g_oft e })
    else if whence = SEEK_CUR then
      .ok (0, { st with g_oft := fun e =>
        if e = ofte then i32 (st.g_oft ofte + offset) else st.g_oft e })
    else if whence = SEEK_END then
      let «end» := fsSize fd st
      .ok (0, { st with g_oft := fun e => if e = ofte then i32 («end» + offset) else st.g_oft e })
    else .error (.fatal EBADWHENCE st)

/-- The local variables of fsRead that its loop changes. -/
structure ReadVars where
  bioBuf : Nat → Int
  result : Nat → Int
  bytesRead : Int
  numBytes : Int

/-- One iteration of the loop of fsRead, for the block fbn. -/
def fsReadBody (st : Bfs) (inum numb curs size fbn : Int) (v : ReadVars) : Option ReadVars :=
  let result := bfsRead inum fbn v.result st
  let numBytes :=
    if curs + v.bytesRead ≥ size then size - (curs + v.bytesRead)
    else if numb - v.bytesRead < 512 then numb - v.bytesRead else 512
  match memcpy v.bioBuf (some (BYTESPERBLOCK * 4)) v.bytesRead result none numBytes with
  | none => none
  | some bioBuf => some ⟨bioBuf, result, v.bytesRead + numBytes, numBytes⟩

/-- The loop of fsRead: the given number of iterations, from block fbn on. -/
def fsReadLoop (st : Bfs) (inum numb curs size : Int) : Nat → Int → ReadVars → Option ReadVars
  | 0, _, v => some v
  | k + 1, fbn, v =>
    match fsReadBody st inum numb curs size fbn v with
    | none => none
    | some v1 => fsReadLoop st inum numb curs size k (fbn + 1) v1

/-- The function fsRead of fs.c.  The value is the return value together with
the caller's buffer after the call. -/
def fsRead (fd numb : Int) (buf : Nat → Int) (st : Bfs) :
    Except Err ((Int × (Nat → Int)) × Bfs) :=
  let curs := fsTell fd st
  let inum := bfsFdToInum fd st
  let startFBN := curs.tdiv 512
  let numBlksToRead := numb.tdiv 512 + 1
  let inode := bfsReadInode inum st
  match fsReadLoop st inum numb curs inode.size numBlksToRead.toNat startFBN
      ⟨fun _ => 0, buf, 0, 0⟩ with
  | none => .error .undefined
  | some v =>
    if v.bytesRead > 0 then
      match memcpy v.result none 0 v.bioBuf (some (BYTESPERBLOCK * 4)) v.bytesRead with
      | none => .error .undefined
      | some result => .ok ((v.bytesRead, result), bfsSetCursor inum (curs + v.bytesRead) st)
    else .ok ((0, v.result), st)

/-- The function writeToBlock of fs.c.  writingBuf is the array of 512 bytes
together with the stack memory behind it, so the copy is given no capacity: a
copy that ends beyond byte 511 goes on into that memory, and only the bytes
below 512 are the block that is written back and later read. -/
def writeToBlock (inum offset fbn numToWrite : Int) (buf : Nat → Int) (st : Bfs) : Option Bfs :=
  let writingBuf := bfsRead inum fbn (fun _ => 0) st
  match memcpy writingBuf none offset buf none numToWrite with
  | none => none
  | some writingBuf1 =>
    let startDBN := bfsFbnToDbn inum fbn
    some (bioWrite startDBN writingBuf1 st)

/-- The local variables of fsWrite that its loop changes. -/
structure WriteVars where
  cursor : Int
  startFBN : Int
  offset : Int
  leftToWrite : Int
  numToWrite : Int

/-- The byte count one iteration of the loop of fsWrite passes to
writeToBlock. -/
def fsWriteCount (v : WriteVars) : Int :=
  if v.leftToWrite > BYTESPERBLOCK then BYTESPERBLOCK - v.offset else v.numToWrite

/-- One iteration of the loop of fsWrite. -/
def fsWriteBody (fd inum : Int) (buf : Nat → Int) (v : WriteVars) (st : Bfs) :
    Option (WriteVars × Bfs) :=
  let numToWrite := fsWriteCount v
  match writeToBlock inum v.offset v.startFBN numToWrite buf st with
  | none => none
  | some st1 =>
    let st2 := bfsSetCursor inum (v.cursor + numToWrite) st1
    let cursor := bfsTell fd st2
    let leftToWrite := v.leftToWrite - numToWrite
    some (⟨cursor, v.startFBN + 1, 0, leftToWrite, leftToWrite⟩, st2)

/-- The loop of fsWrite: the given number of iterations. -/
def fsWriteLoop (fd inum : Int) (buf : Nat → Int) : Nat → WriteVars → Bfs → Option (WriteVars × Bfs)
  | 0, v, st => some (v, st)
  | k + 1, v, st =>
    match fsWriteBody fd inum buf v st with
    | none => none
    | some (v1, st1) => fsWriteLoop fd inum buf k v1 st1

/-- The function fsWrite of fs.c. -/
def fsWrite (fd numb : Int) (buf : Nat → Int) (st : Bfs) : Except Err (Int × Bfs) :=
  let inum := bfsFdToInum fd st
  let cursor := bfsTell fd st
  let startFBN := cursor.tdiv BYTESPERBLOCK
  let offset := cursor.tmod BYTESPERBLOCK
  let numBlocks := numb.tdiv BYTESPERBLOCK + 1
  if ENODBN = 0 then .error (.abort st)
  else
    let leftToWrite := numb
    let numToWrite := leftToWrite
    match fsWriteLoop fd inum buf numBlocks.toNat ⟨cursor, startFBN, offset, leftToWrite, numToWrite⟩ st with
    | none => .error .undefined
    | some (_, st1) => .ok (0, st1)

/-! ## Observing the outcome of a call -/

/-- The value a call returned, if it returned. -/
def retOf {α : Type} : Except Err (α × Bfs) → Option α
  | .ok (a, _) => some a
  | .error _ => none

/-- The state a call returned in, if it returned. -/
def stateOf {α : Type} : Except Err (α × Bfs) → Option Bfs
  | .ok (_, st) => some st
  | .error _ => none

/-- The byte at position p of the file of a descriptor: byte p mod 512 of the
block at FBN p div 512. -/
def fileByte (fd : Int) (p : Nat) (st : Bfs) : Int :=
  st.blocks (bfsFbnToDbn (bfsFdToInum fd st) ((p / 512 : Nat) : Int)) (p % 512)

/-! ## The calls a loop makes -/

/-- The iterations of the loop of fsRead in order: the FBN passed to bfsRead,
bytesRead before the copy into bioBuf, and the numBytes of that copy.  The list
ends with the first iteration whose memcpy is undefined, if there is one. -/
def fsReadIters (st : Bfs) (inum numb curs size : Int) :
    Nat → Int → ReadVars → List (Int × Int × Int)
  | 0, _, _ => []
  | k + 1, fbn, v =>
    let numBytes :=
      if curs + v.bytesRead ≥ size then size - (curs + v.bytesRead)
      else if numb - v.bytesRead < 512 then numb - v.bytesRead else 512
    (fbn, v.bytesRead, numBytes) ::
      match fsReadBody st inum numb curs size fbn v with
      | none => []
      | some v1 => fsReadIters st inum numb curs size k (fbn + 1) v1

/-- The iterations of the loop of a call of fsRead, with the locals set up as
fsRead sets them up. -/
def fsReadTrace (fd numb : Int) (buf : Nat → Int) (st : Bfs) : List (Int × Int × Int) :=
  let curs := fsTell fd st
  let inum := bfsFdToInum fd st
  let startFBN := curs.tdiv 512
  let numBlksToRead := numb.tdiv 512 + 1
  let inode := bfsReadInode inum st
  fsReadIters st inum numb curs inode.size numBlksToRead.toNat startFBN ⟨fun _ => 0, buf, 0, 0⟩

/-- The calls of writeToBlock that the loop of fsWrite makes, in order: the
offset, the FBN and the numToWrite passed.  The list ends with the first call
whose memcpy is undefined (a negative length or offset), if there is one. -/
def fsWriteCalls (fd inum : Int) (buf : Nat → Int) :
    Nat → WriteVars → Bfs → List (Int × Int × Int)
  | 0, _, _ => []
  | k + 1, v, st =>
    (v.offset, v.startFBN, fsWriteCount v) ::
      match fsWriteBody fd inum buf v st with
      | none => []
      | some (v1, st1) => fsWriteCalls fd inum buf k v1 st1

/-- The calls of writeToBlock of a call of fsWrite, with the locals set up as
fsWrite sets them up. -/
def fsWriteTrace (fd numb : Int) (buf : Nat → Int) (st : Bfs) : List (Int × Int × Int) :=
  let inum := bfsFdToInum fd st
  let cursor := bfsTell fd st
  let startFBN := cursor.tdiv BYTESPERBLOCK
  let offset := cursor.tmod BYTESPERBLOCK
  let numBlocks := numb.tdiv BYTESPERBLOCK + 1
  if ENODBN = 0 then []
  else
    let leftToWrite := numb
    let numToWrite := leftToWrite
    fsWriteCalls fd inum buf numBlocks.toNat ⟨cursor, startFBN, offset, leftToWrite, numToWrite⟩ st

/-! ## Scenarios -/

/-- The scenario of the round trip: write L bytes of B at the cursor, seek
back to c from the start of the file, read L bytes into buf. -/
def writeSeekRead (fd L : Int) (B : Nat → Int) (c : Int) (buf : Nat → Int) (st : Bfs) :
    Except Err ((Int × (Nat → Int)) × Bfs) :=
  match fsWrite fd L B st with
  | .error e => .error e
  | .ok (_, st1) =>
    match fsSeek fd c SEEK_SET st1 with
    | .error e => .error e
    | .ok (_, st2) => fsRead fd L buf st2

/-- A caller's buffer holding zeros. -/
def zeros : Nat → Int := fun _ => 0

/-- A freshly created file: every cursor 0, every size 0, every block zero;
descriptor fd is bound to inode fd. -/
def freshFile : Bfs := ⟨fun fd => fd, fun inum => inum, fun _ => 0, fun _ => 0, fun _ _ => 0⟩

/-- The 11 bytes of "Hello World", followed by zeros. -/
def hello : Nat → Int := fun i => [72, 101, 108, 108, 111, 32, 87, 111, 114, 108, 100].getD i 0

/-- The file after "Hello World" was stored in it, with size 11 and the cursor
at 5. -/
def helloFile : Bfs :=
  ⟨fun fd => fd, fun inum => inum, fun _ => 5, fun _ => 11,
    fun d i => if d.2 = 0 then hello i else 0⟩

/-- A file of size 10 with the cursor at 0. -/
def sized10 : Bfs := ⟨fun fd => fd, fun inum => inum, fun _ => 0, fun _ => 10, fun _ _ => 0⟩

/-- A source buffer whose first 512 bytes are 1 and whose later bytes are 2. -/
def wide : Nat → Int := fun i => if i < 512 then 1 else 2

/-- An empty file with the cursor at 500. -/
def at500 : Bfs := ⟨fun fd => fd, fun inum => inum, fun _ => 500, fun _ => 0, fun _ _ => 0⟩

/-- A file of size 3 with the cursor at 1 whose bytes are 10, 11, 12. -/
def ramp : Bfs :=
  ⟨fun fd => fd, fun inum => inum, fun _ => 1, fun _ => 3,
    fun _ i => if i < 3 then (i : Int) + 10 else 0⟩

/-- The "Hello World" file (size 11) with the cursor at the end of the file. -/
def helloEnd : Bfs :=
  ⟨fun fd => fd, fun inum => inum, fun _ => 11, fun _ => 11,
    fun d i => if d.2 = 0 then hello i else 0⟩

/-- The "Hello World" file (size 11) with the cursor at 0. -/
def helloStart : Bfs :=
  ⟨fun fd => fd, fun inum => inum, fun _ => 0, fun _ => 11,
    fun d i => if d.2 = 0 then hello i else 0⟩

/-- The "Hello World" file after a seek to 100 from the start of the file. -/
def helloAt100 : Bfs :=
  { helloFile with g_oft := fun e => if e = 3 then 100 else helloFile.g_oft e }

/-- A file of size 1024 with the cursor at 0. -/
def sized1024 : Bfs := ⟨fun fd => fd, fun inum => inum, fun _ => 0, fun _ => 1024, fun _ _ => 0⟩

/-- A file of size 2049 with the cursor at 0. -/
def sized2049 : Bfs := ⟨fun fd => fd, fun inum => inum, fun _ => 0, fun _ => 2049, fun _ _ => 0⟩

/-! ## Lemmas -/

/-- A sum that is an i32 value is stored as it is. -/
theorem i32_of_range (x : Int) (h1 : -2147483648 ≤ x) (h2 : x ≤ 2147483647) : i32 x = x := by
  unfold i32
  omega

theorem fsTell_bfsSetCursor (fd v : Int) (st : Bfs) :
    fsTell fd (bfsSetCursor (bfsFdToInum fd st) v st) = v := by
  simp [fsTell, bfsTell, bfsSetCursor, bfsFindOFTE, bfsFdToInum]

theorem fsWriteBody_size (fd inum : Int) (buf : Nat → Int) (v v1 : WriteVars) (st st1 : Bfs)
    (h : fsWriteBody fd inum buf v st = some (v1, st1)) : st1.size = st.size := by
  unfold fsWriteBody writeToBlock at h
  simp only [] at h
  split at h
  · cases h
  · rename_i s hs
    split at hs
    · cases hs
    · cases hs
      cases h
      rfl

theorem fsWriteLoop_size (fd inum : Int) (buf : Nat → Int) (k : Nat) :
    ∀ (v v1 : WriteVars) (st st1 : Bfs),
      fsWriteLoop fd inum buf k v st = some (v1, st1) → st1.size = st.size := by
  induction k with
  | zero =>
    intro v v1 st st1 h
    simp only [fsWriteLoop, Option.some.injEq, Prod.mk.injEq] at h
    rw [h.2]
  | succ k ih =>
    intro v v1 st st1 h
    simp only [fsWriteLoop] at h
    split at h
    · cases h
    · rename_i v2 st2 hb
      rw [ih v2 v1 st2 st1 h, fsWriteBody_size fd inum buf v v2 st st2 hb]

/-- No call of fsWrite changes a recorded size. -/
theorem fsWrite_size (fd numb : Int) (buf : Nat → Int) (st st1 : Bfs)
    (h : stateOf (fsWrite fd numb buf st) = some st1) : st1.size = st.size := by
  unfold fsWrite at h
  simp only [] at h
  split at h
  · simp [stateOf] at h
  · split at h
    · simp [stateOf] at h
    · rename_i v s hl
      simp only [stateOf, Option.some.injEq] at h
      subst h
      exact fsWriteLoop_size _ _ _ _ _ _ _ _ hl

/-! ## The claims -/

/-- C1 (round trip), evaluated on the code: in a freshly created file, writing
600 bytes (512 bytes 1, then 88 bytes 2) at cursor 0, seeking back to 0 and
reading 600 bytes returns 0 bytes, not 600, and leaves byte 512 of the
caller's buffer at 0 where the written byte is 2; the byte the write itself
stored at file position 512 is 1. -/
theorem roundtrip_two_blocks_reads_nothing :
    (retOf (writeSeekRead 3 600 wide 0 zeros freshFile)).map (fun r => (r.1, r.2 512))
      = some (0, 0) ∧
    wide 512 = 2 ∧
    (stateOf (fsWrite 3 600 wide freshFile)).map (fileByte 3 512) = some 1 := by
  decide

/-- C2 (read count), evaluated on the code: with recorded size 10 and the
cursor at 0, a read of 100 bytes returns 100, not the 10 bytes that remain
before the end of the file. -/
theorem fsRead_past_size_returns_request :
    (retOf (fsRead 3 100 zeros sized10)).map Prod.fst = some 100 := by
  decide

/-- C3 (write content), evaluated on the code: a write of 600 bytes at cursor
0 stores source byte 0 at file position 512, where source byte 512 belongs,
and the two differ. -/
theorem fsWrite_second_block_repeats_source :
    (stateOf (fsWrite 3 600 wide freshFile)).map (fileByte 3 512) = some (wide 0) ∧
    wide 0 ≠ wide 512 := by
  decide

/-- C4 (write cursor advance), evaluated on the code: a write of 1000 bytes
with the cursor at 500 returns with the cursor at 1024, not at 1500. -/
theorem fsWrite_midblock_cursor_short :
    (stateOf (fsWrite 3 1000 wide at500)).map (fsTell 3) = some 1024 := by
  decide

/-- C5 (read content), evaluated on the code: with the cursor at 1 in a file
holding the bytes 10, 11, 12, a read of 2 bytes returns 2 and delivers the
bytes 10, 11 of positions 0 and 1, not the bytes 11, 12 of positions 1 and
2. -/
theorem fsRead_midblock_reads_block_start :
    (retOf (fsRead 3 2 zeros ramp)).map (fun r => (r.1, r.2 0, r.2 1)) = some (2, 10, 11) ∧
    fileByte 3 1 ramp = 11 ∧ fileByte 3 2 ramp = 12 := by
  decide

/-- C8 (growth), evaluated on the code: after the 11 bytes "Hello World" are
written at cursor 0 of a freshly created file, fsSize still returns 0, not
11. -/
theorem fsWrite_leaves_size_zero :
    (stateOf (fsWrite 3 11 hello freshFile)).map (fsSize 3) = some 0 := by
  decide

/-- Counterexample to C9: with the cursor at 5 in the "Hello World" file of
size 11, a seek by 2147483647 leaves the cursor at -2147483644 for SEEK_CUR,
not at 5 + 2147483647, and at -2147483638 for SEEK_END, not at
11 + 2147483647: the i32 sums wrap. -/
theorem fsSeek_sum_wraps :
    (stateOf (fsSeek 3 2147483647 SEEK_CUR helloFile)).map (fsTell 3) = some (-2147483644) ∧
    fsTell 3 helloFile + 2147483647 = 2147483652 ∧
    (stateOf (fsSeek 3 2147483647 SEEK_END helloFile)).map (fsTell 3) = some (-2147483638) ∧
    fsSize 3 helloFile + 2147483647 = 2147483658 := by
  decide

/-- C9, amended (seek arithmetic): for an offset that is not negative, fsSeek
returns 0 and fsTell then returns the offset for SEEK_SET, the old cursor plus
the offset for SEEK_CUR when that sum is an i32 value, and the recorded size
plus the offset for SEEK_END when that sum is an i32 value. -/
theorem fsSeek_arith (fd offset : Int) (st : Bfs) (h : 0 ≤ offset) :
    retOf (fsSeek fd offset SEEK_SET st) = some 0 ∧
    (stateOf (fsSeek fd offset SEEK_SET st)).map (fsTell fd) = some offset ∧
    retOf (fsSeek fd offset SEEK_CUR st) = some 0 ∧
    (-2147483648 ≤ fsTell fd st + offset → fsTell fd st + offset ≤ 2147483647 →
      (stateOf (fsSeek fd offset SEEK_CUR st)).map (fsTell fd)
        = some (fsTell fd st + offset)) ∧
    retOf (fsSeek fd offset SEEK_END st) = some 0 ∧
    (-2147483648 ≤ fsSize fd st + offset → fsSize fd st + offset ≤ 2147483647 →
      (stateOf (fsSeek fd offset SEEK_END st)).map (fsTell fd)
        = some (fsSize fd st + offset)) := by
  have h1 : ¬ offset < 0 := by omega
  refine ⟨?_, ?_, ?_, ?_, ?_, ?_⟩
  · simp [fsSeek, h1, retOf]
  · simp [fsSeek, h1, stateOf, fsTell, bfsTell, bfsFindOFTE, bfsFdToInum]
  · simp [fsSeek, h1, SEEK_SET, SEEK_CUR, retOf]
  · intro hlo hhi
    have hr := i32_of_range _ hlo hhi
    simp only [fsTell, bfsTell, bfsFindOFTE, bfsFdToInum] at hr
    simp [fsSeek, h1, SEEK_SET, SEEK_CUR, stateOf, fsTell, bfsTell, bfsFindOFTE, bfsFdToInum, hr]
  · simp [fsSeek, h1, SEEK_SET, SEEK_CUR, SEEK_END, retOf]
  · intro hlo hhi
    have hr := i32_of_range _ hlo hhi
    simp [fsSeek, h1, SEEK_SET, SEEK_CUR, SEEK_END, stateOf, fsTell, bfsTell, bfsFindOFTE,
      bfsFdToInum, hr]

/-- Witness of C9: seeking by 5 in the "Hello World" file (cursor 5, size
11). -/
theorem fsSeek_arith_witness :
    (0 : Int) ≤ 5 ∧
    (stateOf (fsSeek 3 5 SEEK_SET helloFile)).map (fsTell 3) = some 5 ∧
    (stateOf (fsSeek 3 5 SEEK_CUR helloFile)).map (fsTell 3) = some 10 ∧
    (stateOf (fsSeek 3 5 SEEK_END helloFile)).map (fsTell 3) = some 16 :=
  ⟨by decide, (fsSeek_arith 3 5 helloFile (by decide)).2.1,
    (fsSeek_arith 3 5 helloFile (by decide)).2.2.2.1 (by decide) (by decide),
    (fsSeek_arith 3 5 helloFile (by decide)).2.2.2.2.2 (by decide) (by decide)⟩

/-- C10 (seek failure): fsSeek does not return exactly when the offset is
negative or whence is none of SEEK_SET, SEEK_CUR, SEEK_END; a negative offset
is fatal with EBADCURS whatever whence is; and every failure is FATAL with
EBADCURS or EBADWHENCE in the unchanged state, so the cursor is the one before
the call. -/
theorem fsSeek_failure (fd offset whence : Int) (st : Bfs) :
    ((∃ e, fsSeek fd offset whence st = .error e) ↔
      (offset < 0 ∨ (whence ≠ SEEK_SET ∧ whence ≠ SEEK_CUR ∧ whence ≠ SEEK_END))) ∧
    (offset < 0 → fsSeek fd offset whence st = .error (.fatal EBADCURS st)) ∧
    (∀ e, fsSeek fd offset whence st = .error e →
      e = .fatal EBADCURS st ∨ e = .fatal EBADWHENCE st) := by
  unfold fsSeek
  by_cases h0 : offset < 0
  · simp [h0]
  · by_cases h1 : whence = SEEK_SET
    · simp [h0, h1]
    · by_cases h2 : whence = SEEK_CUR
      · subst h2
        simp [h0, SEEK_SET, SEEK_CUR]
      · by_cases h3 : whence = SEEK_END
        · subst h3
          simp [h0, SEEK_SET, SEEK_CUR, SEEK_END]
        · simp [h0, h1, h2, h3]

/-! ## Lemmas on the frame of the calls -/

theorem fsSeek_frame (fd offset whence : Int) (st st1 : Bfs)
    (h : stateOf (fsSeek fd offset whence st) = some st1) :
    0 ≤ offset ∧ st1.fdToInum = st.fdToInum ∧ st1.findOFTE = st.findOFTE ∧
      st1.size = st.size ∧ st1.blocks = st.blocks ∧
      (∀ e, e ≠ bfsFindOFTE (bfsFdToInum fd st) st → st1.g_oft e = st.g_oft e) ∧
      ((whence = SEEK_SET ∧ fsTell fd st1 = offset) ∨
        (whence = SEEK_CUR ∧ fsTell fd st1 = i32 (fsTell fd st + offset)) ∨
        (whence = SEEK_END ∧ fsTell fd st1 = i32 (fsSize fd st + offset))) := by
  unfold fsSeek at h
  split at h
  · simp [stateOf] at h
  · rename_i h0
    simp only [] at h
    split at h
    · rename_i hw
      simp only [stateOf, Option.some.injEq] at h
      subst h
      refine ⟨by omega, rfl, rfl, rfl, rfl, ?_, ?_⟩
      · intro e he; simp [he]
      · left; exact ⟨hw, by simp [fsTell, bfsTell, bfsFindOFTE, bfsFdToInum]⟩
    · split at h
      · rename_i hw
        simp only [stateOf, Option.some.injEq] at h
        subst h
        refine ⟨by omega, rfl, rfl, rfl, rfl, ?_, ?_⟩
        · intro e he; simp [he]
        · right; left; exact ⟨hw, by simp [fsTell, bfsTell, bfsFindOFTE, bfsFdToInum]⟩
      · split at h
        · rename_i hw
          simp only [stateOf, Option.some.injEq] at h
          subst h
          refine ⟨by omega, rfl, rfl, rfl, rfl, ?_, ?_⟩
          · intro e he; simp [he]
          · right; right; exact ⟨hw, by simp [fsTell, bfsTell, bfsFindOFTE, bfsFdToInum]⟩
        · simp [stateOf] at h

/-! ## The claims, continued -/

/-- C12 (seek frame): a call of fsSeek that returns leaves the recorded size,
every stored block and the descriptor tables as they were; of the cursors only
the one of the descriptor's own entry can differ. -/
theorem fsSeek_moves_only_cursor (fd offset whence : Int) (st st1 : Bfs)
    (h : stateOf (fsSeek fd offset whence st) = some st1) :
    fsSize fd st1 = fsSize fd st ∧ st1.size = st.size ∧ st1.blocks = st.blocks ∧
    (∀ p, fileByte fd p st1 = fileByte fd p st) ∧
    st1.fdToInum = st.fdToInum ∧ st1.findOFTE = st.findOFTE ∧
    ∀ e, e ≠ bfsFindOFTE (bfsFdToInum fd st) st → st1.g_oft e = st.g_oft e := by
  have hf := fsSeek_frame fd offset whence st st1 h
  refine ⟨?_, hf.2.2.2.1, hf.2.2.2.2.1, ?_, hf.2.1, hf.2.2.1, hf.2.2.2.2.2.1⟩
  · simp only [fsSize, bfsGetSize, bfsFdToInum, hf.2.1, hf.2.2.2.1]
  · intro p
    simp only [fileByte, bfsFdToInum, hf.2.1, hf.2.2.2.2.1]

/-- Witness of C12: a seek to 100 in the "Hello World" file, whose size is
11. -/
theorem fsSeek_moves_only_cursor_witness :
    stateOf (fsSeek 3 100 SEEK_SET helloFile) = some helloAt100 ∧
    fsTell 3 helloAt100 = 100 ∧ fsSize 3 helloFile = 11 ∧
    (fsSize 3 helloAt100 = fsSize 3 helloFile ∧ helloAt100.size = helloFile.size ∧
    helloAt100.blocks = helloFile.blocks ∧
    (∀ p, fileByte 3 p helloAt100 = fileByte 3 p helloFile) ∧
    helloAt100.fdToInum = helloFile.fdToInum ∧ helloAt100.findOFTE = helloFile.findOFTE ∧
    ∀ e, e ≠ bfsFindOFTE (bfsFdToInum 3 helloFile) helloFile →
      helloAt100.g_oft e = helloFile.g_oft e) :=
  ⟨rfl, by decide, by decide, fsSeek_moves_only_cursor 3 100 SEEK_SET helloFile helloAt100 rfl⟩

/-- C13 (past-EOF read and the buffer), evaluated on the code: with the cursor
at the recorded size 11 of the "Hello World" file, a read of 1 byte into a
zeroed buffer returns 0 and leaves byte 0 of the buffer at 72, the first byte
of the block, not at 0. -/
theorem fsRead_at_eof_overwrites_buffer :
    (retOf (fsRead 3 1 zeros helloEnd)).map (fun r => (r.1, r.2 0)) = some (0, 72) ∧
    zeros 0 = 0 := by
  decide

/-- C14 (non-positive read), evaluated on the code: with the cursor at 0 in a
file of size 10, a read of -1 bytes makes one loop iteration that passes the
length -1 to memcpy, and the call has no return value. -/
theorem fsRead_negative_count_undefined :
    fsReadTrace 3 (-1) zeros sized10 = [(0, 0, -1)] ∧
    (retOf (fsRead 3 (-1) zeros sized10)).map Prod.fst = none := by
  decide

/-- C15 (per-block write bound), evaluated on the code: with the cursor at
500, a write of 100 bytes makes one call of writeToBlock, at offset 500 with
100 bytes, not with the min(100, 512 - 500) = 12 bytes that fit; the overlay
ends 88 bytes beyond the 512-byte block buffer. -/
theorem fsWrite_count_overruns_block :
    fsWriteTrace 3 100 wide at500 = [(500, 0, 100)] ∧
    min (100 : Int) (512 - 500) = 12 ∧ (512 : Int) < 500 + 100 := by
  decide

/-- C16 (write block span), evaluated on the code: a write of 512 bytes at
cursor 0 calls writeToBlock for FBN 0 with 512 bytes and then for FBN 1 with 0
bytes, although the last byte written is in FBN (0 + 512 - 1) div 512 = 0. -/
theorem fsWrite_touches_block_past_span :
    fsWriteTrace 3 512 wide freshFile = [(0, 0, 512), (0, 1, 0)] ∧
    ((0 + 512 - 1) / 512 : Int) = 0 ∧
    retOf (fsWrite 3 512 wide freshFile) = some 0 := by
  decide

/-- C17 (read block span), evaluated on the code: a read of 512 bytes at
cursor 0 of a file of size 1024 fetches two blocks, FBN 0 and FBN 1, not the
ceil(512 / 512) = 1 block of the request, and returns 512. -/
theorem fsRead_fetches_block_past_span :
    fsReadTrace 3 512 zeros sized1024 = [(0, 0, 512), (1, 512, 0)] ∧
    (retOf (fsRead 3 512 zeros sized1024)).map Prod.fst = some 512 := by
  decide

/-! ## Lemmas on the loop of fsRead for a request inside the file -/

theorem fsReadBody_in_file (st : Bfs) (inum n c s fbn : Int) (v : ReadVars)
    (hs : c + n ≤ s) (hn : n ≤ 2048) (h0 : 0 ≤ v.bytesRead) (h1 : v.bytesRead ≤ n) :
    (if c + v.bytesRead ≥ s then s - (c + v.bytesRead)
      else if n - v.bytesRead < 512 then n - v.bytesRead else 512) = min (n - v.bytesRead) 512 ∧
    ∃ v1, fsReadBody st inum n c s fbn v = some v1 ∧
      v1.bytesRead = v.bytesRead + min (n - v.bytesRead) 512 ∧
      ∀ i : Nat, v1.bioBuf i =
        if v.bytesRead.toNat ≤ i ∧ i < v.bytesRead.toNat + (min (n - v.bytesRead) 512).toNat then
          st.blocks (bfsFbnToDbn inum fbn) (i - v.bytesRead.toNat)
        else v.bioBuf i := by
  have hm : (if c + v.bytesRead ≥ s then s - (c + v.bytesRead)
      else if n - v.bytesRead < 512 then n - v.bytesRead else 512) = min (n - v.bytesRead) 512 := by
    split_ifs <;> omega
  refine ⟨hm, ?_⟩
  unfold fsReadBody
  simp only [hm]
  unfold memcpy
  have hcond : 0 ≤ v.bytesRead ∧ 0 ≤ min (n - v.bytesRead) 512 ∧
      fits (some (BYTESPERBLOCK * 4)) (v.bytesRead + min (n - v.bytesRead) 512) = true ∧
      fits none (min (n - v.bytesRead) 512) = true := by
    refine ⟨h0, by omega, ?_, rfl⟩
    simp only [fits, BYTESPERBLOCK, decide_eq_true_eq]; omega
  rw [if_pos hcond]
  refine ⟨_, rfl, rfl, ?_⟩
  intro i
  simp only [bfsRead]
  split_ifs with h2 h3
  · rfl
  · exfalso; omega
  · rfl

theorem fsReadIters_in_file (st : Bfs) (inum n c s : Int) (hs : c + n ≤ s) (hn : n ≤ 2048)
    (k : Nat) : ∀ (fbn : Int) (v : ReadVars), 0 ≤ v.bytesRead → v.bytesRead ≤ n →
      (fsReadIters st inum n c s k fbn v).length = k ∧
      ∀ t ∈ fsReadIters st inum n c s k fbn v,
        0 ≤ t.2.1 ∧ 0 ≤ t.2.2 ∧ t.2.1 + t.2.2 ≤ BYTESPERBLOCK * 4 := by
  induction k with
  | zero =>
    intro fbn v _ _
    simp [fsReadIters]
  | succ k ih =>
    intro fbn v h0 h1
    obtain ⟨hm, v1, hv1, hb1, _⟩ := fsReadBody_in_file st inum n c s fbn v hs hn h0 h1
    have hI := ih (fbn + 1) v1 (by omega) (by omega)
    simp only [fsReadIters, hv1, hm, List.length_cons, hI.1, List.mem_cons, true_and]
    intro t ht
    rcases ht with ht | ht
    · subst ht
      simp only [BYTESPERBLOCK]
      omega
    · exact hI.2 t ht

theorem fsReadLoop_aligned (st : Bfs) (inum : Int) (n b : Nat) (c s : Int)
    (hc : c = ((512 * b : Nat) : Int)) (hs : c + n ≤ s) (hn : n ≤ 2048) (k : Nat) :
    ∀ (i : Nat) (fbn : Int) (v : ReadVars), fbn = ((b + i : Nat) : Int) →
      v.bytesRead = ((min (512 * i) n : Nat) : Int) →
      (∀ j : Nat, j < min (512 * i) n →
        v.bioBuf j = st.blocks (bfsFbnToDbn inum ((b + j / 512 : Nat) : Int)) (j % 512)) →
      ∃ v1, fsReadLoop st inum n c s k fbn v = some v1 ∧
        v1.bytesRead = ((min (512 * (i + k)) n : Nat) : Int) ∧
        ∀ j : Nat, j < min (512 * (i + k)) n →
          v1.bioBuf j = st.blocks (bfsFbnToDbn inum ((b + j / 512 : Nat) : Int)) (j % 512) := by
  induction k with
  | zero =>
    intro i fbn v _ hB hC
    exact ⟨v, rfl, hB, hC⟩
  | succ k ih =>
    intro i fbn v hf hB hC
    obtain ⟨_, v1, hv1, hb1, hbuf1⟩ :=
      fsReadBody_in_file st inum n c s fbn v hs (by omega) (by omega) (by omega)
    have hB1 : v1.bytesRead = ((min (512 * (i + 1)) n : Nat) : Int) := by omega
    have hC1 : ∀ j : Nat, j < min (512 * (i + 1)) n →
        v1.bioBuf j = st.blocks (bfsFbnToDbn inum ((b + j / 512 : Nat) : Int)) (j % 512) := by
      intro j hj
      rw [hbuf1 j]
      split_ifs with h2
      · have hi : 512 * i ≤ n := by omega
        have hj1 : j / 512 = i := by omega
        have hj2 : j - v.bytesRead.toNat = j % 512 := by omega
        rw [hf, hj1, hj2]
      · exact hC j (by omega)
    obtain ⟨v2, hv2, hB2, hC2⟩ := ih (i + 1) (fbn + 1) v1 (by omega) hB1 hC1
    refine ⟨v2, ?_, ?_, ?_⟩
    · simp only [fsReadLoop, hv1, hv2]
    · rw [hB2]; congr 2; omega
    · intro j hj
      exact hC2 j (by omega)

/-- Counterexample to C18: a read of 2049 bytes at cursor 0 of a file of size
2049 copies 1 byte to bioBuf at offset 2048, beyond its 2048 bytes, and the
call has no return value.  Outside the file the length itself goes negative:
-502 in the second iteration of a read of 600 bytes at cursor 0 of a file of
size 10, and -500 for a read of 1 byte with the cursor at 500 in an empty
file. -/
theorem fsRead_staging_overrun :
    fsReadTrace 3 2049 zeros sized2049 =
      [(0, 0, 512), (1, 512, 512), (2, 1024, 512), (3, 1536, 512), (4, 2048, 1)] ∧
    BYTESPERBLOCK * 4 < 2048 + 1 ∧
    (retOf (fsRead 3 2049 zeros sized2049)).map Prod.fst = none ∧
    fsReadTrace 3 600 zeros sized10 = [(0, 0, 512), (1, 512, -502)] ∧
    fsReadTrace 3 1 zeros at500 = [(0, 0, -500)] := by
  decide

/-- C18, amended (staging region): for a request of at most 2048 bytes that
lies inside the file, the loop of fsRead makes all its n div 512 + 1
iterations, and in each of them neither bytesRead nor numBytes is negative and
bytesRead + numBytes is at most the 4 * 512 bytes of bioBuf. -/
theorem fsRead_staging_in_bounds (fd n : Int) (buf : Nat → Int) (st : Bfs)
    (hn1 : 1 ≤ n) (hn2 : n ≤ 2048) (hs : fsTell fd st + n ≤ fsSize fd st) :
    (fsReadTrace fd n buf st).length = (n.tdiv 512 + 1).toNat ∧
    ∀ t ∈ fsReadTrace fd n buf st,
      0 ≤ t.2.1 ∧ 0 ≤ t.2.2 ∧ t.2.1 + t.2.2 ≤ BYTESPERBLOCK * 4 := by
  unfold fsReadTrace
  exact fsReadIters_in_file st (bfsFdToInum fd st) n (fsTell fd st)
    (bfsReadInode (bfsFdToInum fd st) st).size hs hn2 _ _ _ (le_refl _) (by simp only; omega)

/-- Witness of C18: a read of 1024 bytes at cursor 0 of a file of size
1024. -/
theorem fsRead_staging_in_bounds_witness :
    ((1 : Int) ≤ 1024 ∧ (1024 : Int) ≤ 2048 ∧ fsTell 3 sized1024 + 1024 ≤ fsSize 3 sized1024) ∧
    fsReadTrace 3 1024 zeros sized1024 = [(0, 0, 512), (1, 512, 512), (2, 1024, 0)] ∧
    ((fsReadTrace 3 1024 zeros sized1024).length = ((1024 : Int).tdiv 512 + 1).toNat ∧
    ∀ t ∈ fsReadTrace 3 1024 zeros sized1024,
      0 ≤ t.2.1 ∧ 0 ≤ t.2.2 ∧ t.2.1 + t.2.2 ≤ BYTESPERBLOCK * 4) :=
  ⟨⟨by decide, by decide, by decide⟩, by decide,
    fsRead_staging_in_bounds 3 1024 zeros sized1024 (by decide) (by decide) (by decide)⟩

/-! ## Lemmas on the loop of fsWrite -/

/-- C20 (aligned read inside the file): with the cursor at the start of block
b, a read of n bytes, 1 ≤ n ≤ 2048, that ends at or before the recorded size
returns n, moves the cursor to 512 b + n, and delivers in byte i of the buffer
the file byte at position 512 b + i, for every i < n. -/
theorem fsRead_aligned_in_file (fd : Int) (b n : Nat) (buf : Nat → Int) (st : Bfs)
    (hc : fsTell fd st = ((512 * b : Nat) : Int)) (hn1 : 1 ≤ n) (hn2 : n ≤ 2048)
    (hs : ((512 * b + n : Nat) : Int) ≤ fsSize fd st) :
    (retOf (fsRead fd n buf st)).map Prod.fst = some (n : Int) ∧
    (stateOf (fsRead fd n buf st)).map (fsTell fd) = some ((512 * b + n : Nat) : Int) ∧
    ∀ r, retOf (fsRead fd n buf st) = some r →
      ∀ i : Nat, i < n → r.2 i = fileByte fd (512 * b + i) st := by
  have hk : (((n : Int)).tdiv 512 + 1).toNat = n / 512 + 1 := by
    rw [Int.tdiv_eq_ediv (by omega) (by decide)]; omega
  have hfb : (fsTell fd st).tdiv 512 = ((b + 0 : Nat) : Int) := by
    rw [hc, Int.tdiv_eq_ediv (by omega) (by decide)]; omega
  have hs1 : fsTell fd st + (n : Int) ≤ (bfsReadInode (bfsFdToInum fd st) st).size := by
    have : fsSize fd st = (bfsReadInode (bfsFdToInum fd st) st).size := rfl
    omega
  obtain ⟨v1, hv1, hB1, hC1⟩ := fsReadLoop_aligned st (bfsFdToInum fd st) n b (fsTell fd st)
    (bfsReadInode (bfsFdToInum fd st) st).size hc hs1 hn2 (n / 512 + 1) 0
    ((fsTell fd st).tdiv 512) ⟨fun _ => 0, buf, 0, 0⟩ hfb (by simp) (by intro j hj; simp at hj)
  have hB : v1.bytesRead = (n : Int) := by omega
  have hpos : v1.bytesRead > 0 := by omega
  have hcond : 0 ≤ (0 : Int) ∧ 0 ≤ v1.bytesRead ∧ fits none (0 + v1.bytesRead) = true ∧
      fits (some (BYTESPERBLOCK * 4)) v1.bytesRead = true := by
    refine ⟨by omega, by omega, rfl, ?_⟩
    simp only [fits, BYTESPERBLOCK, decide_eq_true_eq]; omega
  unfold fsRead
  simp only [hk, hv1, if_pos hpos, memcpy, if_pos hcond, retOf, stateOf, Option.map_some',
    fsTell_bfsSetCursor, Option.some.injEq]
  refine ⟨hB, by omega, ?_⟩
  intro r hr i hi
  subst hr
  have h1 : (512 * b + i) / 512 = b + i / 512 := by omega
  have h2 : (512 * b + i) % 512 = i % 512 := by omega
  have h3 : (0 : Int).toNat ≤ i ∧ i < (0 : Int).toNat + v1.bytesRead.toNat := by
    constructor <;> omega
  simp only [fileByte, h1, h2, if_pos h3]
  have := hC1 i (by omega)
  simpa using this

/-- Witness of C20: a read of the 11 bytes of "Hello World" at cursor 0. -/
theorem fsRead_aligned_in_file_witness :
    (fsTell 3 helloStart = ((512 * 0 : Nat) : Int) ∧ 1 ≤ 11 ∧ 11 ≤ 2048 ∧
      ((512 * 0 + 11 : Nat) : Int) ≤ fsSize 3 helloStart) ∧
    (retOf (fsRead 3 ((11 : Nat) : Int) zeros helloStart)).map (fun r => (r.1, r.2 0, r.2 10))
      = some (11, 72, 100) ∧
    ((retOf (fsRead 3 ((11 : Nat) : Int) zeros helloStart)).map Prod.fst
      = some ((11 : Nat) : Int) ∧
    (stateOf (fsRead 3 ((11 : Nat) : Int) zeros helloStart)).map (fsTell 3)
      = some ((512 * 0 + 11 : Nat) : Int) ∧
    ∀ r, retOf (fsRead 3 ((11 : Nat) : Int) zeros helloStart) = some r →
      ∀ i : Nat, i < 11 → r.2 i = fileByte 3 (512 * 0 + i) helloStart) :=
  ⟨⟨by decide, by decide, by decide, by decide⟩, by decide,
    fsRead_aligned_in_file 3 0 11 zeros helloStart (by decide) (by decide) (by decide)
      (by decide)⟩

end Fs
